import Mathlib

/-!
Shallow embedding of the `masonry` virtual tile-grid engine.

The repository ships two engine variants in `src/core/masonry.ts`:
* a patch-strategy engine (class `Masonry`, nested row grid, boundary
  stitching via `#appendHorizontalItems` / `#appendVerticalItems`), and
* a wrap-strategy engine (default-exported class, flat image list,
  modulo wrapping via `#move`, redundancy border via `#setImagesPosition`).

Coordinates and deltas are JS numbers; we model them as rationals so all
arithmetic is exact and decidable.
-/

namespace Masonry

/-- One grid tile: an opaque source handle plus a top-left position.
Mirrors `GridItem` from `src/core/masonry.ts`. -/
structure GridItem where
  source : ℕ
  x : ℚ
  y : ℚ
  deriving DecidableEq, Repr

/-- The tile style (`GridItemStyle`): cell width/height plus optional
gap and radius (defaults 0, as `this.#style.gap ?? 0`). -/
structure Style where
  width : ℚ
  height : ℚ
  gap : ℚ := 0
  radius : ℚ := 0
  deriving DecidableEq, Repr

/-- The mutable state of the patch-strategy engine that the recycling
algorithm reads and writes: style, canvas pixel size, the axis-lock
flags `#disabled`, and the nested row grid `#gridItems`. -/
structure State where
  style : Style
  canvasWidth : ℚ
  canvasHeight : ℚ
  disabledHorizontal : Bool
  disabledVertical : Bool
  gridItems : List (List GridItem)
  deriving DecidableEq, Repr

/-- `get blockWidth` : `style.width + (style.gap ?? 0)`. -/
def blockWidth (s : State) : ℚ := s.style.width + s.style.gap

/-- `get blockHeight` : `style.height + (style.gap ?? 0)`. -/
def blockHeight (s : State) : ℚ := s.style.height + s.style.gap

/-- `get gap` : `style.gap ?? 0`. -/
def gap (s : State) : ℚ := s.style.gap

/-- `get columnCapacity` : `Math.ceil(canvasWidth / blockWidth)`. -/
def columnCapacity (s : State) : ℕ := (Int.ceil (s.canvasWidth / blockWidth s)).toNat

/-- `get rowCapacity` : `Math.ceil(canvasHeight / blockHeight)`. -/
def rowCapacity (s : State) : ℕ := (Int.ceil (s.canvasHeight / blockHeight s)).toNat

/-- `#isOutOfBounds(x, y)` : overflow test against the box
`[-width, canvasWidth] × [-height, canvasHeight]`. -/
def isOutOfBounds (s : State) (x y : ℚ) : Bool :=
  decide (x < -s.style.width ∨ x > s.canvasWidth) ||
  decide (y < -s.style.height ∨ y > s.canvasHeight)

/-- Fuel-driven worker for lodash `chunk`; the fuel only needs to cover
the number of produced chunks, which the list length always does. -/
def chunkGo (m : ℕ) : ℕ → List α → List (List α)
  | _, [] => []
  | 0, _ => []
  | fuel + 1, a :: rest => (a :: rest.take m) :: chunkGo m fuel (rest.drop m)

/-- lodash `chunk(list, n)`: split into consecutive runs of length `n`
(last run may be shorter); `chunk(list, 0)` is `[]`. -/
def chunkList (n : ℕ) (l : List α) : List (List α) :=
  match n with
  | 0 => []
  | m + 1 => chunkGo m l.length l

/-- `#calculateItemPositions(items)`: the patch-strategy grid builder.
Cell `i` gets source `items[i % items.length]`, position
`((i % columnCapacity) · blockWidth, (i / columnCapacity) · blockHeight)`. -/
def calculateItemPositions (s : State) (items : List ℕ) : List GridItem :=
  (List.range (columnCapacity s * rowCapacity s)).map fun index =>
    { source := items.getD (index % items.length) 0
      x := (index % columnCapacity s : ℕ) * blockWidth s
      y := (index / columnCapacity s : ℕ) * blockHeight s }

/-- `#initializeGrid`: chunk the built cell list into rows of
`columnCapacity`. -/
def initializeGrid (s : State) (items : List ℕ) : State :=
  { s with gridItems := chunkList (columnCapacity s) (calculateItemPositions s items) }

/-- The per-tile translation step inside `#updateGridPosition`:
`!disabled.horizontal && (item.x += x); !disabled.vertical && (item.y += y)`. -/
def shiftItem (dH dV : Bool) (dx dy : ℚ) (t : GridItem) : GridItem :=
  { t with
    x := if dH then t.x else t.x + dx
    y := if dV then t.y else t.y + dy }

/-- `#appendHorizontalItems(row, x)`: optionally synthesize one tile at
the left edge (when `x > 0` and a gap opened), keep the in-bounds tiles,
optionally synthesize one tile at the right edge (when `x < 0`). -/
def appendHorizontalItems (s : State) (row : List GridItem) (x : ℚ) : List GridItem :=
  match row with
  | [] => []
  | leftmost :: rest =>
      let rightmost := (leftmost :: rest).getLastD leftmost
      let front : List GridItem :=
        if x > 0 ∧ leftmost.x > gap s then
          [{ source := rightmost.source, x := leftmost.x - blockWidth s, y := leftmost.y }]
        else []
      let kept := (leftmost :: rest).filter fun e => ¬ isOutOfBounds s e.x e.y
      let back : List GridItem :=
        if x < 0 ∧ rightmost.x < s.canvasWidth - blockWidth s then
          [{ source := leftmost.source, x := rightmost.x + blockWidth s, y := rightmost.y }]
        else []
      front ++ kept ++ back

/-- `#columnPatch(row, newY)`: clone a row at a new `y`. -/
def columnPatch (row : List GridItem) (newY : ℚ) : List GridItem :=
  row.map fun template => { source := template.source, x := template.x, y := newY }

/-- `#appendVerticalItems(images, y)`: optionally prepend a clone of the
last row above the first row, and append a clone of the first row below
the last row.  Indexing `firstRow[0]` / `lastRow[0]` is embedded with a
default fallback tile. -/
def appendVerticalItems (s : State) (images : List (List GridItem)) (y : ℚ) :
    List (List GridItem) :=
  match images with
  | [] => []
  | firstRow :: restRows =>
      let lastRow := (firstRow :: restRows).getLastD firstRow
      let firstRowY := (firstRow.headD { source := 0, x := 0, y := 0 }).y
      let lastRowY := (lastRow.headD { source := 0, x := 0, y := 0 }).y
      let front : List (List GridItem) :=
        if y > 0 ∧ firstRowY > gap s then
          [columnPatch lastRow (firstRowY - blockHeight s)]
        else []
      let back : List (List GridItem) :=
        if y < 0 ∧ lastRowY < s.canvasHeight - blockHeight s then
          [columnPatch firstRow (lastRowY + blockHeight s)]
        else []
      front ++ (firstRow :: restRows) ++ back

/-- The row list `#updateGridPosition` builds before the vertical patch:
translate every tile, run the horizontal stitch on each non-empty row,
keep only the non-empty results. -/
def afterRows (s : State) (dx dy : ℚ) : List (List GridItem) :=
  let moved := s.gridItems.map
    (List.map (shiftItem s.disabledHorizontal s.disabledVertical dx dy))
  moved.filterMap fun row =>
    if row.isEmpty then none
    else
      let afterRow := appendHorizontalItems s row dx
      if afterRow.isEmpty then none else some afterRow

/-- `#updateGridPosition(x, y)`: no-op when both axes are locked;
otherwise translate, stitch horizontally per row, and stitch rows
vertically when `y ≠ 0`. -/
def updateGridPosition (s : State) (dx dy : ℚ) : State :=
  if s.disabledHorizontal ∧ s.disabledVertical then s
  else
    let rows := afterRows s dx dy
    { s with gridItems := if dy ≠ 0 then appendVerticalItems s rows dy else rows }

/-- `resize()` of the patch engine: adopt the new canvas size and
re-chunk the flattened grid into rows of the new `columnCapacity`
(when the grid is non-empty). -/
def resize (s : State) (newW newH : ℚ) : State :=
  let s1 := { s with canvasWidth := newW, canvasHeight := newH }
  if s1.gridItems.length > 0 then
    { s1 with gridItems := chunkList (columnCapacity s1) s1.gridItems.flatten }
  else s1

/-- `enable(horizontal = false, vertical = false)`. -/
def enable (s : State) (horizontal vertical : Bool) : State :=
  { s with disabledHorizontal := horizontal, disabledVertical := vertical }

/-- `disable(horizontal = true, vertical = true)`. -/
def disable (s : State) (horizontal vertical : Bool) : State :=
  { s with disabledHorizontal := horizontal, disabledVertical := vertical }

/-- `enable()` with both defaults. -/
def enableDefault (s : State) : State := enable s false false

/-- `disable()` with both defaults. -/
def disableDefault (s : State) : State := disable s true true

/-- A sequence of pan calls. -/
def panAll (s : State) (ds : List (ℚ × ℚ)) : State :=
  ds.foldl (fun t d => updateGridPosition t d.1 d.2) s

/-- All tile x-coordinates of a state. -/
def xList (s : State) : List ℚ := s.gridItems.flatten.map GridItem.x

/-- Total tile count of the patch-engine state. -/
def totalTiles (s : State) : ℕ := s.gridItems.flatten.length

end Masonry

namespace Wrap

/-- One positioned image of the wrap-strategy engine
(`ImageWithPositionInfo`): opaque image handle plus position. -/
structure ImageItem where
  image : ℕ
  x : ℚ
  y : ℚ
  deriving DecidableEq, Repr

/-- The geometry configuration of the wrap-strategy engine after
`#initConfig`: item size, gap, redundancy and canvas pixel size. -/
structure Config where
  itemWidth : ℚ
  itemHeight : ℚ
  gap : ℚ
  redundancy : ℕ
  canvasWidth : ℚ
  canvasHeight : ℚ
  deriving DecidableEq, Repr

/-- `get blockWidth` : `itemWidth + gap`. -/
def blockWidth (c : Config) : ℚ := c.itemWidth + c.gap

/-- `get blockHeight` : `itemHeight + gap`. -/
def blockHeight (c : Config) : ℚ := c.itemHeight + c.gap

/-- `get capacityX` : `Math.ceil(canvasWidth / (itemWidth + gap))`. -/
def capacityX (c : Config) : ℕ := (Int.ceil (c.canvasWidth / blockWidth c)).toNat

/-- `get capacityY` : `Math.ceil(canvasHeight / (itemHeight + gap))`. -/
def capacityY (c : Config) : ℕ := (Int.ceil (c.canvasHeight / blockHeight c)).toNat

/-- `get rangeWidth` : `canvasWidth + redundancy * 2 * (itemWidth + gap)`. -/
def rangeWidth (c : Config) : ℚ := c.canvasWidth + (c.redundancy : ℚ) * 2 * blockWidth c

/-- `get rangeHeight` : `canvasHeight + redundancy * 2 * (itemHeight + gap)`. -/
def rangeHeight (c : Config) : ℚ := c.canvasHeight + (c.redundancy : ℚ) * 2 * blockHeight c

/-- `#setImagesPosition(images)`: the wrap-strategy grid builder.  The
padded counts are `capacity + 2·redundancy` per axis; cell `i` sits at
column `i % columnCount`, row `i / columnCount`, shifted left/up by the
redundancy margin. -/
def setImagesPosition (c : Config) (images : List ℕ) : List ImageItem :=
  let rowCount := capacityY c + 2 * c.redundancy
  let columnCount := capacityX c + 2 * c.redundancy
  let offsetX := (c.redundancy : ℚ) * blockWidth c
  let offsetY := (c.redundancy : ℚ) * blockHeight c
  (List.range (rowCount * columnCount)).map fun i =>
    { image := images.getD (i % images.length) 0
      x := (i % columnCount : ℕ) * blockWidth c - offsetX
      y := (i / columnCount : ℕ) * blockHeight c - offsetY }

/-- One coordinate of the `#move` body: add nothing here (the delta was
already added), then wrap once past either edge:
`if (u > range - item) u -= range + gap; if (u < -item) u += range + gap`. -/
def wrapCoord (range item gapv u : ℚ) : ℚ :=
  let u1 := if u > range - item then u - (range + gapv) else u
  if u1 < -item then u1 + (range + gapv) else u1

/-- The per-image body of `#move(x, y)`. -/
def moveItem (c : Config) (dx dy : ℚ) (it : ImageItem) : ImageItem :=
  { it with
    x := wrapCoord (rangeWidth c) c.itemWidth c.gap (it.x + dx)
    y := wrapCoord (rangeHeight c) c.itemHeight c.gap (it.y + dy) }

/-- `#move(x, y)`: apply the wrap update to every image. -/
def move (c : Config) (dx dy : ℚ) (images : List ImageItem) : List ImageItem :=
  images.map (moveItem c dx dy)

/-- `resize()` of the wrap engine: adopt the new canvas size; the image
list (positions and count) is left untouched and merely re-rendered. -/
def resizeWrap (c : Config) (newW newH : ℚ) (images : List ImageItem) :
    Config × List ImageItem :=
  ({ c with canvasWidth := newW, canvasHeight := newH }, images)

/-- The raw constructor options the wrap `#initConfig` validates. -/
structure Options where
  itemsLen : ℕ
  itemWidth : ℚ
  itemHeight : ℚ
  gapOpt : Option ℚ
  redundancyOpt : Option ℚ
  hasContext2d : Bool
  deriving DecidableEq, Repr

/-- The validation sequence of the wrap `#initConfig`, checks in source
order.  Note the faithful duplication: the third check tests
`options.itemWidth <= 0` again while its message speaks of the height —
`itemHeight` is never validated. -/
def initConfigChecks (o : Options) : Except String Unit :=
  if o.itemsLen ≤ 0 then .error "items is required"
  else if o.itemWidth ≤ 0 then .error "item width must > 0"
  else if o.itemWidth ≤ 0 then .error "item height must > 0"
  else if (o.gapOpt.getD 0) < 0 then .error "item gap must >= 0"
  else if (o.redundancyOpt.getD 1) < 1 then .error "redundancy must >= 1"
  else if !o.hasContext2d then .error "2d context of canvas not supported or available"
  else .ok ()

/-- `#loadImages(items)` over the items' load outcomes: `allSettled`,
then reject with the list of all failure reasons when any item failed,
else resolve with the images in original order. -/
def loadImages (outcomes : List (Except String ℕ)) : Except (List String) (List ℕ) :=
  let rejected := outcomes.filterMap fun o =>
    match o with
    | .error e => some e
    | .ok _ => none
  if rejected.length > 0 then .error rejected
  else .ok (outcomes.filterMap fun o =>
    match o with
    | .ok v => some v
    | .error _ => none)

/-- The failure reasons of all failed sources, in order. -/
def failureReasons (outcomes : List (Except String ℕ)) : List String :=
  outcomes.filterMap fun o =>
    match o with
    | .error e => some e
    | .ok _ => none

/-- `#prepareImages`: await `#loadImages`; on rejection the error is
caught here and forwarded to `onError`, leaving `#images` empty. -/
def prepareImages (c : Config) (outcomes : List (Except String ℕ)) :
    List ImageItem × List (List String) :=
  match loadImages outcomes with
  | .ok imgs => (setImagesPosition c imgs, [])
  | .error reasons => ([], [reasons])

/-- The observable outcome of construction: the built image list, every
`onError` invocation (each carrying a reason batch), and whether
`onReady` ran. -/
structure DrawResult where
  images : List ImageItem
  onErrorCalls : List (List String)
  onReadyCalled : Bool
  deriving DecidableEq, Repr

/-- `#draw(options)`: await `#prepareImages` (which never rejects, since
it catches internally), then `#render`, `#bindEvent` and `onReady` —
unconditionally, also when loading failed. -/
def draw (c : Config) (outcomes : List (Except String ℕ)) : DrawResult :=
  let prepared := prepareImages c outcomes
  { images := prepared.1, onErrorCalls := prepared.2, onReadyCalled := true }

end Wrap

namespace Wrap

/-- The wrap-range box the spec claims as invariant:
`x ∈ [-itemWidth, rangeWidth)`, `y ∈ [-itemHeight, rangeHeight)`. -/
def inRange (c : Config) (it : ImageItem) : Prop :=
  -c.itemWidth ≤ it.x ∧ it.x < rangeWidth c ∧
  -c.itemHeight ≤ it.y ∧ it.y < rangeHeight c

/-- A sequence of `#move` calls. -/
def moveAll (c : Config) (images : List ImageItem) (ds : List (ℚ × ℚ)) :
    List ImageItem :=
  ds.foldl (fun imgs d => move c d.1 d.2 imgs) images

/-- The trajectory of one image under a sequence of `#move` calls. -/
def moveTrack (c : Config) (it : ImageItem) (ds : List (ℚ × ℚ)) : ImageItem :=
  ds.foldl (fun t d => moveItem c d.1 d.2 t) it

end Wrap

/-- The spec's running example for the patch engine: a 300×300 canvas
with 50×50 items and no gap. -/
def exState : Masonry.State :=
  { style := { width := 50, height := 50 }, canvasWidth := 300, canvasHeight := 300,
    disabledHorizontal := false, disabledVertical := false, gridItems := [] }

/-- The spec's running example for the wrap engine: a 300×300 canvas,
50×50 items, no gap, redundancy 1 (so `rangeWidth = rangeHeight = 400`). -/
def exConfig : Wrap.Config :=
  { itemWidth := 50, itemHeight := 50, gap := 0, redundancy := 1,
    canvasWidth := 300, canvasHeight := 300 }

/-- An example patch state holding a single one-tile row. -/
def exRowState : Masonry.State :=
  { exState with gridItems := [[⟨0, 0, 0⟩]] }

/-- An example patch state with horizontal panning disabled and one full
row of six tiles (the built grid's first row). -/
def exLockedState : Masonry.State :=
  { exState with
    disabledHorizontal := true
    gridItems := [[⟨0, 0, 0⟩, ⟨1, 50, 0⟩, ⟨2, 100, 0⟩, ⟨3, 150, 0⟩,
      ⟨4, 200, 0⟩, ⟨5, 250, 0⟩]] }

/-- The shape a patch-grid row keeps while the horizontal axis is
locked: non-empty, uniform `y`, all `x` inside the keep box, the
leftmost `x` at most `gap` and the rightmost `x` at least
`canvasWidth − blockWidth` — so neither horizontal stitch can fire. -/
def rowOk (s : Masonry.State) (row : List Masonry.GridItem) : Prop :=
  row ≠ [] ∧
  (∀ t ∈ row, t.y = (row.headD ⟨0, 0, 0⟩).y) ∧
  (∀ t ∈ row, -s.style.width ≤ t.x ∧ t.x ≤ s.canvasWidth) ∧
  (row.headD ⟨0, 0, 0⟩).x ≤ Masonry.gap s ∧
  s.canvasWidth - Masonry.blockWidth s ≤ (row.getLastD ⟨0, 0, 0⟩).x

/-- Every row of the grid is in the locked shape (the built grid is;
panning preserves it). -/
def lockedInv (s : Masonry.State) : Prop :=
  ∀ row ∈ s.gridItems, rowOk s row

theorem exState_columnCapacity : Masonry.columnCapacity exState = 6 := by
  norm_num [Masonry.columnCapacity, Masonry.blockWidth, exState]
  decide

theorem exState_rowCapacity : Masonry.rowCapacity exState = 6 := by
  norm_num [Masonry.rowCapacity, Masonry.blockHeight, exState]
  decide

theorem exConfig_capacityX : Wrap.capacityX exConfig = 6 := by
  norm_num [Wrap.capacityX, Wrap.blockWidth, exConfig]
  decide

theorem exConfig_capacityY : Wrap.capacityY exConfig = 6 := by
  norm_num [Wrap.capacityY, Wrap.blockHeight, exConfig]
  decide

/-- Flattening the chunks gives the original list back (worker form). -/
theorem chunkGo_flatten (m : ℕ) :
    ∀ (fuel : ℕ) (l : List α), l.length ≤ fuel →
      (Masonry.chunkGo m fuel l).flatten = l := by
  intro fuel
  induction fuel with
  | zero =>
      intro l hl
      have : l = [] := List.eq_nil_of_length_eq_zero (Nat.le_zero.mp hl)
      subst this
      simp [Masonry.chunkGo]
  | succ n ih =>
      intro l hl
      cases l with
      | nil => simp [Masonry.chunkGo]
      | cons a rest =>
          have hrec : (rest.drop m).length ≤ n := by
            simp only [List.length_drop]
            simp only [List.length_cons] at hl
            omega
          simp [Masonry.chunkGo, ih (rest.drop m) hrec]

/-- Flattening lodash chunks of positive size restores the list. -/
theorem chunkList_flatten (n : ℕ) (hn : 0 < n) (l : List α) :
    (Masonry.chunkList n l).flatten = l := by
  cases n with
  | zero => omega
  | succ m => exact chunkGo_flatten m l.length l le_rfl

/-- When any load outcome failed, `#loadImages` rejects with the batch
of all failure reasons. -/
theorem loadImages_error_of_failures (outcomes : List (Except String ℕ))
    (h : Wrap.failureReasons outcomes ≠ []) :
    Wrap.loadImages outcomes = Except.error (Wrap.failureReasons outcomes) := by
  have hlen : 0 < (Wrap.failureReasons outcomes).length := List.length_pos.mpr h
  unfold Wrap.failureReasons at hlen
  unfold Wrap.loadImages Wrap.failureReasons
  rw [if_pos hlen]

/-- C10: `enable` and `disable` both assign the axis-lock flags directly
from their arguments and differ only in their defaults (`false` for
`enable`, `true` for `disable`); hence `enable()` unlocks both axes,
`disable()` locks both, and `enable(true, true)` locks both axes,
behaving identically to `disable()`. -/
theorem enable_disable_assignment (s : Masonry.State) (h v : Bool) :
    Masonry.enable s h v = Masonry.disable s h v ∧
    (Masonry.enableDefault s).disabledHorizontal = false ∧
    (Masonry.enableDefault s).disabledVertical = false ∧
    (Masonry.disableDefault s).disabledHorizontal = true ∧
    (Masonry.disableDefault s).disabledVertical = true ∧
    Masonry.enable s true true = Masonry.disableDefault s :=
  ⟨rfl, rfl, rfl, rfl, rfl, rfl⟩

/-- C6: the wrap-engine `#initConfig` accepts `itemHeight = -5` because
its third check re-tests `options.itemWidth <= 0` (while its message
reads "item height must > 0"), so construction with a non-positive
`itemHeight` does not throw: the code contradicts its own error message
and the claimed validation. -/
theorem initConfig_accepts_nonpositive_itemHeight :
    Wrap.initConfigChecks
      { itemsLen := 3, itemWidth := 50, itemHeight := -5,
        gapOpt := some 0, redundancyOpt := some 1, hasContext2d := true } =
      Except.ok () := by
  norm_num [Wrap.initConfigChecks]

/-- C7 (amended): when one or more sources fail to load, the failure is
reported exactly once via `onError` as an aggregate carrying all failure
reasons and the image list stays empty, but construction still proceeds:
`#draw` renders the empty list and invokes `onReady`. -/
theorem draw_aggregates_failures_but_still_ready (c : Wrap.Config)
    (outcomes : List (Except String ℕ))
    (hfail : Wrap.failureReasons outcomes ≠ []) :
    (Wrap.draw c outcomes).onErrorCalls = [Wrap.failureReasons outcomes] ∧
    (Wrap.draw c outcomes).images = [] ∧
    (Wrap.draw c outcomes).onReadyCalled = true := by
  have hload := loadImages_error_of_failures outcomes hfail
  simp [Wrap.draw, Wrap.prepareImages, hload]

/-- C7 witness: a two-outcome batch with one failure, run through the
amended statement. -/
theorem draw_aggregates_failures_witness :
    Wrap.failureReasons [Except.error "x", Except.ok 2] ≠ [] ∧
    ((Wrap.draw exConfig [Except.error "x", Except.ok 2]).onErrorCalls =
        [Wrap.failureReasons [Except.error "x", Except.ok 2]] ∧
      (Wrap.draw exConfig [Except.error "x", Except.ok 2]).images = [] ∧
      (Wrap.draw exConfig [Except.error "x", Except.ok 2]).onReadyCalled = true) :=
  ⟨by decide, draw_aggregates_failures_but_still_ready exConfig _ (by decide)⟩

/-- A non-empty list's head-with-default is a member. -/
theorem headD_mem {l : List α} (h : l ≠ []) (d : α) : l.headD d ∈ l := by
  cases l with
  | nil => contradiction
  | cons a t => simp [List.headD]

/-- A non-empty list's last-with-default is a member. -/
theorem getLastD_mem (l : List α) (d : α) (h : l ≠ []) : l.getLastD d ∈ l := by
  induction l generalizing d with
  | nil => contradiction
  | cons a t ih =>
      cases t with
      | nil => simp [List.getLastD]
      | cons b u =>
          have := ih b (by simp)
          simp only [List.getLastD_cons] at *
          exact List.mem_cons_of_mem a this

/-- C9: every row `#updateGridPosition` passes to `#appendVerticalItems`
is non-empty (empty rows and empty stitch results are filtered out
beforehand), so the `firstRow[0]` and `lastRow[0]` accesses inside
`#appendVerticalItems` are in bounds: the embedded head/last fallbacks
are never taken. -/
theorem afterRows_rows_nonempty (s : Masonry.State) (dx dy : ℚ)
    (row : List Masonry.GridItem) (hmem : row ∈ Masonry.afterRows s dx dy) :
    row ≠ [] ∧ (Masonry.afterRows s dx dy).headD [] ≠ [] ∧
      (Masonry.afterRows s dx dy).getLastD [] ≠ [] := by
  have key : ∀ r ∈ Masonry.afterRows s dx dy, r ≠ [] := by
    intro r hr
    unfold Masonry.afterRows at hr
    simp only [List.mem_filterMap] at hr
    obtain ⟨r0, _, hr0⟩ := hr
    by_cases h1 : r0.isEmpty
    · simp [h1] at hr0
    · simp only [h1] at hr0
      by_cases h2 : (Masonry.appendHorizontalItems s r0 dx).isEmpty
      · simp [h2] at hr0
      · simp only [h2, Bool.false_eq_true, if_false, Option.some.injEq] at hr0
        rw [← hr0]
        intro hE
        rw [hE] at h2
        simp at h2
  have hne : Masonry.afterRows s dx dy ≠ [] := List.ne_nil_of_mem hmem
  exact ⟨key row hmem, key _ (headD_mem hne []), key _ (getLastD_mem _ [] hne)⟩

/-- C9 witness: a single-tile grid, panned by `(0, 0)`. -/
theorem afterRows_rows_nonempty_witness :
    ([⟨0, 0, 0⟩] : List Masonry.GridItem) ≠ [] ∧
      (Masonry.afterRows exRowState 0 0).headD [] ≠ [] ∧
      (Masonry.afterRows exRowState 0 0).getLastD [] ≠ [] := by
  have e1 : Masonry.afterRows exRowState 0 0 = [[⟨0, 0, 0⟩]] := by
    norm_num [Masonry.afterRows, Masonry.shiftItem, Masonry.appendHorizontalItems,
      Masonry.isOutOfBounds, Masonry.gap, Masonry.blockWidth, exRowState, exState,
      List.filterMap, List.filter]
  exact afterRows_rows_nonempty exRowState 0 0 [⟨0, 0, 0⟩] (by rw [e1]; simp)

/-- C1: after translating a non-empty row by `(dx, dy)` (both axes
enabled), if `dx > 0` and the translated leftmost tile's `x` exceeds the
gap, exactly one tile is prepended at `x = leftmost.x − blockWidth`
(same `y`) carrying the rightmost tile's source; if `dx < 0` and the
rightmost tile's `x` is below `canvasWidth − blockWidth`, exactly one
tile is appended at `x = rightmost.x + blockWidth` carrying the leftmost
tile's source; and the surviving original tiles are exactly those inside
`[-itemWidth, canvasWidth] × [-itemHeight, canvasHeight]`. -/
theorem appendHorizontalItems_stitch (s : Masonry.State) (first : Masonry.GridItem)
    (rest : List Masonry.GridItem) (dx dy : ℚ) :
    let row := (first :: rest).map (Masonry.shiftItem false false dx dy)
    let leftmost := Masonry.shiftItem false false dx dy first
    let rightmost := row.getLastD leftmost
    let kept := row.filter fun e => ¬ Masonry.isOutOfBounds s e.x e.y
    (0 < dx → leftmost.x > Masonry.gap s →
      Masonry.appendHorizontalItems s row dx =
        (⟨rightmost.source, leftmost.x - Masonry.blockWidth s, leftmost.y⟩ :
          Masonry.GridItem) :: kept) ∧
    (dx < 0 → rightmost.x < s.canvasWidth - Masonry.blockWidth s →
      Masonry.appendHorizontalItems s row dx =
        kept ++ [(⟨leftmost.source, rightmost.x + Masonry.blockWidth s, rightmost.y⟩ :
          Masonry.GridItem)]) ∧
    (∀ e ∈ row, (e ∈ kept ↔
      (-s.style.width ≤ e.x ∧ e.x ≤ s.canvasWidth ∧
        -s.style.height ≤ e.y ∧ e.y ≤ s.canvasHeight))) := by
  refine ⟨?_, ?_, ?_⟩
  · intro hdx hx
    unfold Masonry.appendHorizontalItems
    simp only [List.map_cons]
    rw [if_pos ⟨hdx, hx⟩, if_neg]
    · simp
    · rintro ⟨h1, -⟩
      exact absurd hdx (not_lt.mpr h1.le)
  · intro hdx hx
    unfold Masonry.appendHorizontalItems
    simp only [List.map_cons]
    rw [if_neg, if_pos ⟨hdx, hx⟩]
    · simp
    · rintro ⟨h1, -⟩
      exact absurd hdx (not_lt.mpr h1.le)
  · intro e hrow
    rw [List.mem_filter]
    simp only [hrow, true_and, decide_eq_true_eq, Masonry.isOutOfBounds,
      Bool.or_eq_true, decide_eq_true_eq, not_or, not_lt]
    tauto

/-- C1 witness: the spec's `dx = +60` example — the row `0, 50, 250`
shifts to `60, 110, 310`; the tile at `310 > 300` is dropped and one
tile with the old rightmost source is prepended at `60 − 50 = 10`. -/
theorem appendHorizontalItems_stitch_witness :
    Masonry.appendHorizontalItems exState
        [⟨0, 60, 0⟩, ⟨1, 110, 0⟩, ⟨2, 310, 0⟩] 60 =
      [⟨2, 10, 0⟩, ⟨0, 60, 0⟩, ⟨1, 110, 0⟩] := by
  have h := (appendHorizontalItems_stitch exState ⟨0, 0, 0⟩ [⟨1, 50, 0⟩, ⟨2, 250, 0⟩]
      60 0).1 (by norm_num)
      (by norm_num [Masonry.shiftItem, Masonry.gap, exState])
  have hrow : ([⟨0, 0, 0⟩, ⟨1, 50, 0⟩, ⟨2, 250, 0⟩] : List Masonry.GridItem).map
      (Masonry.shiftItem false false 60 0) = [⟨0, 60, 0⟩, ⟨1, 110, 0⟩, ⟨2, 310, 0⟩] := by
    norm_num [Masonry.shiftItem]
  rw [hrow] at h
  norm_num [Masonry.shiftItem, Masonry.isOutOfBounds, Masonry.blockWidth, exState,
    List.getLastD, List.filter] at h
  exact h

/-- C7 counterexample: with failing sources the aggregate reaches
`onError`, yet `onReady` is still invoked — refuting "construction does
not proceed to render; the onReady callback is not invoked". -/
theorem draw_onReady_fires_despite_failure :
    Wrap.failureReasons
        [Except.error "failed to load: a", Except.ok 1, Except.error "failed to load: b"] =
      ["failed to load: a", "failed to load: b"] ∧
    (Wrap.draw exConfig
        [Except.error "failed to load: a", Except.ok 1,
          Except.error "failed to load: b"]).onReadyCalled = true :=
  ⟨rfl, rfl⟩

/-- A single wrap of `#move` keeps a coordinate inside `[-item, range)`
provided the coordinate started there, the delta is at most one period
`range + gap` in magnitude, and `gap ≤ item`. -/
theorem wrapCoord_inRange (range item gapv x d : ℚ)
    (hitem : 0 < item) (hgi : gapv ≤ item) (hrange : 0 ≤ range)
    (hx0 : -item ≤ x) (hx1 : x < range)
    (hd0 : -(range + gapv) ≤ d) (hd1 : d ≤ range + gapv) :
    -item ≤ Wrap.wrapCoord range item gapv (x + d) ∧
      Wrap.wrapCoord range item gapv (x + d) < range := by
  simp only [Wrap.wrapCoord]
  by_cases h1 : x + d > range - item
  · simp only [if_pos h1]
    by_cases h2 : x + d - (range + gapv) < -item
    · rw [if_pos h2]
      constructor <;> linarith
    · rw [if_neg h2]
      push_neg at h2
      constructor <;> linarith
  · simp only [if_neg h1]
    push_neg at h1
    by_cases h2 : x + d < -item
    · rw [if_pos h2]
      constructor <;> linarith
    · rw [if_neg h2]
      push_neg at h2
      constructor <;> linarith

/-- One `#move` call keeps every image in the wrap-range box when its
delta is at most one period per axis. -/
theorem move_step_range (c : Wrap.Config) (dx dy : ℚ) (images : List Wrap.ImageItem)
    (hw : 0 < c.itemWidth) (hh : 0 < c.itemHeight)
    (hgw : c.gap ≤ c.itemWidth) (hgh : c.gap ≤ c.itemHeight) (hg : 0 ≤ c.gap)
    (hcw : 0 ≤ c.canvasWidth) (hch : 0 ≤ c.canvasHeight)
    (hdx : |dx| ≤ Wrap.rangeWidth c + c.gap) (hdy : |dy| ≤ Wrap.rangeHeight c + c.gap)
    (hinit : ∀ it ∈ images, Wrap.inRange c it) :
    ∀ it ∈ Wrap.move c dx dy images, Wrap.inRange c it := by
  have hbw : 0 < Wrap.blockWidth c := by
    unfold Wrap.blockWidth
    linarith
  have hbh : 0 < Wrap.blockHeight c := by
    unfold Wrap.blockHeight
    linarith
  have hrw : 0 ≤ Wrap.rangeWidth c := by
    have h1 : (0:ℚ) ≤ (c.redundancy : ℚ) * 2 * Wrap.blockWidth c :=
      mul_nonneg (mul_nonneg (Nat.cast_nonneg _) (by norm_num)) hbw.le
    unfold Wrap.rangeWidth
    linarith
  have hrh : 0 ≤ Wrap.rangeHeight c := by
    have h1 : (0:ℚ) ≤ (c.redundancy : ℚ) * 2 * Wrap.blockHeight c :=
      mul_nonneg (mul_nonneg (Nat.cast_nonneg _) (by norm_num)) hbh.le
    unfold Wrap.rangeHeight
    linarith
  intro it hit
  simp only [Wrap.move, List.mem_map] at hit
  obtain ⟨t0, ht0, rfl⟩ := hit
  obtain ⟨hx0, hx1, hy0, hy1⟩ := hinit t0 ht0
  rw [abs_le] at hdx hdy
  have hX := wrapCoord_inRange (Wrap.rangeWidth c) c.itemWidth c.gap t0.x dx
    hw hgw hrw hx0 hx1 (by linarith [hdx.1]) hdx.2
  have hY := wrapCoord_inRange (Wrap.rangeHeight c) c.itemHeight c.gap t0.y dy
    hh hgh hrh hy0 hy1 (by linarith [hdy.1]) hdy.2
  exact ⟨hX.1, hX.2, hY.1, hY.2⟩

/-- C2 (amended): the wrap-strategy position invariant
`x ∈ [-itemWidth, rangeWidth)`, `y ∈ [-itemHeight, rangeHeight)` is
preserved by every `#move` call whose delta per axis is at most one wrap
period `range + gap` in magnitude, for configurations with
`gap ≤ itemWidth` and `gap ≤ itemHeight`, starting from positions inside
the box.  (A single `if` wraps at most once, so unbounded deltas — and
start positions outside the box — can escape it.) -/
theorem move_preserves_range (c : Wrap.Config) (ds : List (ℚ × ℚ))
    (images : List Wrap.ImageItem)
    (hw : 0 < c.itemWidth) (hh : 0 < c.itemHeight)
    (hgw : c.gap ≤ c.itemWidth) (hgh : c.gap ≤ c.itemHeight) (hg : 0 ≤ c.gap)
    (hcw : 0 ≤ c.canvasWidth) (hch : 0 ≤ c.canvasHeight) :
    (∀ d ∈ ds, |d.1| ≤ Wrap.rangeWidth c + c.gap ∧ |d.2| ≤ Wrap.rangeHeight c + c.gap) →
    (∀ it ∈ images, Wrap.inRange c it) →
    ∀ it ∈ Wrap.moveAll c images ds, Wrap.inRange c it := by
  induction ds generalizing images with
  | nil =>
      intro _ hinit
      simpa [Wrap.moveAll] using hinit
  | cons d rest ih =>
      intro hds hinit
      have hstep := move_step_range c d.1 d.2 images hw hh hgw hgh hg hcw hch
        (hds d (by simp)).1 (hds d (by simp)).2 hinit
      have hfold : Wrap.moveAll c images (d :: rest) =
          Wrap.moveAll c (Wrap.move c d.1 d.2 images) rest := by
        simp [Wrap.moveAll]
      rw [hfold]
      exact ih _ (fun e he => hds e (by simp [he])) hstep

/-- C2 witness: the example wrap config, one tile at the origin, one
`#move` by `(10, 5)`. -/
theorem move_preserves_range_witness : Wrap.inRange exConfig ⟨7, 10, 5⟩ := by
  have h := move_preserves_range exConfig [(10, 5)] [⟨7, 0, 0⟩]
    (by norm_num [exConfig]) (by norm_num [exConfig]) (by norm_num [exConfig])
    (by norm_num [exConfig]) (by norm_num [exConfig]) (by norm_num [exConfig])
    (by norm_num [exConfig])
    (by
      intro d hd
      simp only [List.mem_singleton] at hd
      subst hd
      norm_num [Wrap.rangeWidth, Wrap.rangeHeight, Wrap.blockWidth, Wrap.blockHeight,
        exConfig])
    (by
      intro it hit
      simp only [List.mem_singleton] at hit
      subst hit
      norm_num [Wrap.inRange, Wrap.rangeWidth, Wrap.rangeHeight, Wrap.blockWidth,
        Wrap.blockHeight, exConfig])
  have e : Wrap.moveAll exConfig [⟨7, 0, 0⟩] [(10, 5)] = [⟨7, 10, 5⟩] := by
    norm_num [Wrap.moveAll, Wrap.move, Wrap.moveItem, Wrap.wrapCoord, Wrap.rangeWidth,
      Wrap.rangeHeight, Wrap.blockWidth, Wrap.blockHeight, exConfig]
  exact h ⟨7, 10, 5⟩ (by rw [e]; simp)

/-- C2 counterexample: with the example wrap config (`rangeWidth = 400`)
a single `#move` by `dx = 1000` takes a tile from the in-range position
`x = 0` to `x = 600`, outside `[-50, 400)`: one conditional subtraction
cannot wrap an arbitrary delta back into range. -/
theorem move_escapes_range_on_large_delta :
    Wrap.rangeWidth exConfig = 400 ∧
    Wrap.inRange exConfig ⟨7, 0, 0⟩ ∧
    (Wrap.moveItem exConfig 1000 0 ⟨7, 0, 0⟩).x = 600 ∧
    ¬ ((Wrap.moveItem exConfig 1000 0 ⟨7, 0, 0⟩).x < Wrap.rangeWidth exConfig) := by
  norm_num [Wrap.moveItem, Wrap.wrapCoord, Wrap.rangeWidth, Wrap.rangeHeight,
    Wrap.blockWidth, Wrap.blockHeight, Wrap.inRange, exConfig]

/-- A wrap step changes a coordinate by an exact whole number of periods
`range + gap` beyond the added delta. -/
theorem wrapCoord_congr (range item gapv u : ℚ) :
    ∃ k : ℤ, Wrap.wrapCoord range item gapv u = u + (k : ℚ) * (range + gapv) := by
  simp only [Wrap.wrapCoord]
  by_cases h1 : u > range - item
  · simp only [if_pos h1]
    by_cases h2 : u - (range + gapv) < -item
    · rw [if_pos h2]
      exact ⟨0, by push_cast; ring⟩
    · rw [if_neg h2]
      exact ⟨-1, by push_cast; ring⟩
  · simp only [if_neg h1]
    by_cases h2 : u < -item
    · rw [if_pos h2]
      exact ⟨1, by push_cast; ring⟩
    · rw [if_neg h2]
      exact ⟨0, by push_cast; ring⟩

/-- `#move` acts on each image independently: a sequence of `#move`
calls is the per-image trajectory mapped over the image list. -/
theorem moveAll_eq_map_track (c : Wrap.Config) (images : List Wrap.ImageItem)
    (ds : List (ℚ × ℚ)) :
    Wrap.moveAll c images ds = images.map (fun it => Wrap.moveTrack c it ds) := by
  induction ds generalizing images with
  | nil => simp [Wrap.moveAll, Wrap.moveTrack]
  | cons d rest ih =>
      have h1 : Wrap.moveAll c images (d :: rest) =
          Wrap.moveAll c (Wrap.move c d.1 d.2 images) rest := by
        simp [Wrap.moveAll]
      rw [h1, ih]
      simp only [Wrap.move, List.map_map]
      rfl

/-- Along any delta sequence, each coordinate ends at its start plus the
summed deltas plus a whole number of wrap periods. -/
theorem moveTrack_congr (c : Wrap.Config) (ds : List (ℚ × ℚ)) :
    ∀ it : Wrap.ImageItem, ∃ k m : ℤ,
      (Wrap.moveTrack c it ds).x =
        it.x + (ds.map Prod.fst).sum + (k : ℚ) * (Wrap.rangeWidth c + c.gap) ∧
      (Wrap.moveTrack c it ds).y =
        it.y + (ds.map Prod.snd).sum + (m : ℚ) * (Wrap.rangeHeight c + c.gap) := by
  induction ds with
  | nil =>
      intro it
      exact ⟨0, 0, by simp [Wrap.moveTrack], by simp [Wrap.moveTrack]⟩
  | cons d rest ih =>
      intro it
      obtain ⟨k2, m2, hx2, hy2⟩ := ih (Wrap.moveItem c d.1 d.2 it)
      obtain ⟨k1, hx1⟩ := wrapCoord_congr (Wrap.rangeWidth c) c.itemWidth c.gap (it.x + d.1)
      obtain ⟨m1, hy1⟩ := wrapCoord_congr (Wrap.rangeHeight c) c.itemHeight c.gap (it.y + d.2)
      have hstep : Wrap.moveTrack c it (d :: rest) =
          Wrap.moveTrack c (Wrap.moveItem c d.1 d.2 it) rest := by
        simp [Wrap.moveTrack]
      refine ⟨k1 + k2, m1 + m2, ?_, ?_⟩
      · rw [hstep, hx2]
        simp only [Wrap.moveItem]
        rw [hx1]
        push_cast
        simp only [List.map_cons, List.sum_cons]
        ring
      · rw [hstep, hy2]
        simp only [Wrap.moveItem]
        rw [hy1]
        push_cast
        simp only [List.map_cons, List.sum_cons]
        ring

/-- C3 (amended): for every initial tile set and every sequence of
`#move` calls whose deltas sum to `(0, 0)`, each tile's final position
equals its initial position up to a whole number of wrap periods
`range + gap` per axis (the wrap steps translate by exact periods, so
the round trip holds modulo the period, not on the nose). -/
theorem move_roundtrip_mod_period (c : Wrap.Config) (images : List Wrap.ImageItem)
    (ds : List (ℚ × ℚ))
    (hx : (ds.map Prod.fst).sum = 0) (hy : (ds.map Prod.snd).sum = 0) :
    Wrap.moveAll c images ds = images.map (fun it => Wrap.moveTrack c it ds) ∧
    ∀ it : Wrap.ImageItem, ∃ k m : ℤ,
      (Wrap.moveTrack c it ds).x = it.x + (k : ℚ) * (Wrap.rangeWidth c + c.gap) ∧
      (Wrap.moveTrack c it ds).y = it.y + (m : ℚ) * (Wrap.rangeHeight c + c.gap) := by
  refine ⟨moveAll_eq_map_track c images ds, fun it => ?_⟩
  obtain ⟨k, m, hkx, hmy⟩ := moveTrack_congr c ds it
  refine ⟨k, m, ?_, ?_⟩
  · rw [hkx, hx]
    ring
  · rw [hmy, hy]
    ring

/-- C3 witness: the pair of opposite deltas `(+10, 0)`, `(−10, 0)` on
the example config, tracked from `x = 360`. -/
theorem move_roundtrip_mod_period_witness :
    ((([((10 : ℚ), (0 : ℚ)), (-10, 0)]).map Prod.fst).sum = 0) ∧
    ∃ k m : ℤ,
      (Wrap.moveTrack exConfig ⟨7, 360, 0⟩ [(10, 0), (-10, 0)]).x =
        (360 : ℚ) + (k : ℚ) * (Wrap.rangeWidth exConfig + exConfig.gap) ∧
      (Wrap.moveTrack exConfig ⟨7, 360, 0⟩ [(10, 0), (-10, 0)]).y =
        (0 : ℚ) + (m : ℚ) * (Wrap.rangeHeight exConfig + exConfig.gap) := by
  constructor
  · norm_num
  · exact (move_roundtrip_mod_period exConfig [] [(10, 0), (-10, 0)]
      (by norm_num) (by norm_num)).2 ⟨7, 360, 0⟩

/-- C3 counterexample: on the example config (`rangeWidth = 400`), a
tile at the in-range position `x = 360` panned by `+10` then `−10` ends
at `x = −40 ≠ 360`: the round trip fails on the nose. -/
theorem move_roundtrip_fails_on_the_nose :
    Wrap.moveAll exConfig [⟨7, 360, 0⟩] [(10, 0), (-10, 0)] = [⟨7, -40, 0⟩] ∧
    (10 : ℚ) + (-10) = 0 ∧
    (⟨7, -40, 0⟩ : Wrap.ImageItem) ≠ ⟨7, 360, 0⟩ ∧
    Wrap.inRange exConfig ⟨7, 360, 0⟩ := by
  refine ⟨?_, by norm_num, ?_, ?_⟩
  · norm_num [Wrap.moveAll, Wrap.move, Wrap.moveItem, Wrap.wrapCoord, Wrap.rangeWidth,
      Wrap.rangeHeight, Wrap.blockWidth, Wrap.blockHeight, exConfig]
  · intro h
    rw [Wrap.ImageItem.mk.injEq] at h
    norm_num at h
  · norm_num [Wrap.inRange, Wrap.rangeWidth, Wrap.rangeHeight, Wrap.blockWidth,
      Wrap.blockHeight, exConfig]

/-- The patch grid builder's cell formula, per linear index. -/
theorem calculateItemPositions_get (s : Masonry.State) (items : List ℕ) (i : ℕ)
    (hi : i < Masonry.columnCapacity s * Masonry.rowCapacity s) :
    (Masonry.calculateItemPositions s items).get? i =
      some ⟨items.getD (i % items.length) 0,
        (i % Masonry.columnCapacity s : ℕ) * Masonry.blockWidth s,
        (i / Masonry.columnCapacity s : ℕ) * Masonry.blockHeight s⟩ := by
  unfold Masonry.calculateItemPositions
  rw [List.get?_map, List.get?_range hi]
  rfl

/-- The wrap grid builder's cell formula, per linear index: column and
row come from the padded column count `capacityX + 2·redundancy`, and
the position is shifted by the redundancy margin. -/
theorem setImagesPosition_get (c : Wrap.Config) (imgs : List ℕ) (j : ℕ)
    (hj : j < (Wrap.capacityY c + 2 * c.redundancy) *
        (Wrap.capacityX c + 2 * c.redundancy)) :
    (Wrap.setImagesPosition c imgs).get? j =
      some ⟨imgs.getD (j % imgs.length) 0,
        (j % (Wrap.capacityX c + 2 * c.redundancy) : ℕ) * Wrap.blockWidth c
          - (c.redundancy : ℚ) * Wrap.blockWidth c,
        (j / (Wrap.capacityX c + 2 * c.redundancy) : ℕ) * Wrap.blockHeight c
          - (c.redundancy : ℚ) * Wrap.blockHeight c⟩ := by
  unfold Wrap.setImagesPosition
  rw [List.get?_map, List.get?_range hj]
  rfl

/-- C4 (amended): cell `i` of either builder gets source
`sources[i mod sources.length]`; the patch builder places it at
`((i mod columnCapacity)·blockWidth, (i div columnCapacity)·blockHeight)`,
while the wrap builder derives column and row from the padded column
count `capacityX + 2·redundancy` (not `columnCapacity`) and shifts by
the redundancy margin.  For a 300×300 canvas with 50×50 items and no
gap, `columnCapacity = rowCapacity = 6` and the patch builder produces
exactly 36 tiles at the 36 cell origins `(0,0) … (250,250)`. -/
theorem grid_builder_assignment (s : Masonry.State) (c : Wrap.Config)
    (items imgs : List ℕ) (i j : ℕ)
    (hi : i < Masonry.columnCapacity s * Masonry.rowCapacity s)
    (hj : j < (Wrap.capacityY c + 2 * c.redundancy) *
        (Wrap.capacityX c + 2 * c.redundancy)) :
    (Masonry.calculateItemPositions s items).get? i =
      some ⟨items.getD (i % items.length) 0,
        (i % Masonry.columnCapacity s : ℕ) * Masonry.blockWidth s,
        (i / Masonry.columnCapacity s : ℕ) * Masonry.blockHeight s⟩ ∧
    (Wrap.setImagesPosition c imgs).get? j =
      some ⟨imgs.getD (j % imgs.length) 0,
        (j % (Wrap.capacityX c + 2 * c.redundancy) : ℕ) * Wrap.blockWidth c
          - (c.redundancy : ℚ) * Wrap.blockWidth c,
        (j / (Wrap.capacityX c + 2 * c.redundancy) : ℕ) * Wrap.blockHeight c
          - (c.redundancy : ℚ) * Wrap.blockHeight c⟩ ∧
    (Masonry.calculateItemPositions exState [0]).length = 36 ∧
    (Masonry.calculateItemPositions exState [0]).map (fun t => (t.x, t.y)) =
      ([(0, 0), (50, 0), (100, 0), (150, 0), (200, 0), (250, 0),
        (0, 50), (50, 50), (100, 50), (150, 50), (200, 50), (250, 50),
        (0, 100), (50, 100), (100, 100), (150, 100), (200, 100), (250, 100),
        (0, 150), (50, 150), (100, 150), (150, 150), (200, 150), (250, 150),
        (0, 200), (50, 200), (100, 200), (150, 200), (200, 200), (250, 200),
        (0, 250), (50, 250), (100, 250), (150, 250), (200, 250), (250, 250)] :
        List (ℚ × ℚ)) := by
  refine ⟨calculateItemPositions_get s items i hi, setImagesPosition_get c imgs j hj,
    ?_, ?_⟩
  · unfold Masonry.calculateItemPositions
    rw [List.length_map, List.length_range, exState_columnCapacity, exState_rowCapacity]
  · unfold Masonry.calculateItemPositions
    rw [exState_columnCapacity, exState_rowCapacity]
    have hr : List.range (6 * 6) = [0, 1, 2, 3, 4, 5, 6, 7, 8, 9, 10, 11, 12, 13, 14,
        15, 16, 17, 18, 19, 20, 21, 22, 23, 24, 25, 26, 27, 28, 29, 30, 31, 32, 33,
        34, 35] := by decide
    rw [hr]
    norm_num [Masonry.blockWidth, Masonry.blockHeight, exState]

/-- C4 witness: cell 7 of the example patch grid and cell 6 of the
example wrap grid. -/
theorem grid_builder_assignment_witness :
    (Masonry.calculateItemPositions exState [0]).get? 7 = some ⟨0, 50, 50⟩ ∧
    (Wrap.setImagesPosition exConfig [7]).get? 6 = some ⟨7, 250, -50⟩ := by
  have h := grid_builder_assignment exState exConfig [0] [7] 7 6
    (by rw [exState_columnCapacity, exState_rowCapacity]; norm_num)
    (by rw [exConfig_capacityX, exConfig_capacityY]; norm_num [exConfig])
  obtain ⟨h1, h2, -, -⟩ := h
  constructor
  · rw [h1, exState_columnCapacity]
    norm_num [Masonry.blockWidth, Masonry.blockHeight, exState]
  · rw [h2, exConfig_capacityX]
    norm_num [Wrap.blockWidth, Wrap.blockHeight, exConfig]

/-- C4 counterexample: in the wrap builder with the example config, cell
6 sits at `x = 250` (padded column count 8), not at the
`x = (6 mod columnCapacity)·blockWidth − offset = −50` the claim's
formula gives — the wrap strategy does not use `columnCapacity` as the
column modulus. -/
theorem setImagesPosition_breaks_capacity_formula :
    (Wrap.setImagesPosition exConfig [7]).get? 6 = some ⟨7, 250, -50⟩ ∧
    ((6 % Wrap.capacityX exConfig : ℕ) : ℚ) * Wrap.blockWidth exConfig
        - (exConfig.redundancy : ℚ) * Wrap.blockWidth exConfig = -50 ∧
    ¬ ((250 : ℚ) = -50) := by
  refine ⟨?_, ?_, by norm_num⟩
  · have h := setImagesPosition_get exConfig [7] 6
      (by rw [exConfig_capacityX, exConfig_capacityY]; norm_num [exConfig])
    rw [h, exConfig_capacityX]
    norm_num [Wrap.blockWidth, Wrap.blockHeight, exConfig]
  · rw [exConfig_capacityX]
    norm_num [Wrap.blockWidth, exConfig]

/-- Positive canvas width and block width give at least one column. -/
theorem columnCapacity_pos (s : Masonry.State) (hbw : 0 < Masonry.blockWidth s)
    (hw : 0 < s.canvasWidth) : 0 < Masonry.columnCapacity s := by
  unfold Masonry.columnCapacity
  have h : (0:ℚ) < s.canvasWidth / Masonry.blockWidth s := div_pos hw hbw
  have h2 : (0:ℤ) < Int.ceil (s.canvasWidth / Masonry.blockWidth s) := Int.ceil_pos.mpr h
  omega

/-- C8 (amended): resize never changes the tile count: the patch engine
re-chunks the same flattened tile list into the new column capacity
(count preserved, given positive new width and block width), and the
wrap engine leaves its image list untouched.  Positions and dimensions
are the unchanged exact rationals, so no negative dimension arises. -/
theorem resize_preserves_tile_count (s : Masonry.State) (newW newH : ℚ)
    (c : Wrap.Config) (imgs : List Wrap.ImageItem) (nW nH : ℚ)
    (hbw : 0 < Masonry.blockWidth s) (hW : 0 < newW) :
    Masonry.totalTiles (Masonry.resize s newW newH) = Masonry.totalTiles s ∧
    (Wrap.resizeWrap c nW nH imgs).2 = imgs := by
  constructor
  · have hcap : 0 < Masonry.columnCapacity
        { s with canvasWidth := newW, canvasHeight := newH } :=
      columnCapacity_pos _ hbw hW
    unfold Masonry.resize Masonry.totalTiles
    by_cases h : s.gridItems.length > 0
    · simp only [h, if_pos]
      rw [chunkList_flatten _ hcap]
    · simp [h]
  · rfl

/-- C8 witness: a one-tile grid resized to 100×100, and a wrap resize. -/
theorem resize_preserves_tile_count_witness :
    (0:ℚ) < Masonry.blockWidth exRowState ∧ (0:ℚ) < 100 ∧
    (Masonry.totalTiles (Masonry.resize exRowState 100 100) =
        Masonry.totalTiles exRowState ∧
      (Wrap.resizeWrap exConfig 100 100 []).2 = []) :=
  ⟨by norm_num [Masonry.blockWidth, exRowState, exState], by norm_num,
    resize_preserves_tile_count exRowState 100 100 exConfig [] 100 100
      (by norm_num [Masonry.blockWidth, exRowState, exState]) (by norm_num)⟩

/-- C8 counterexample: the example 6×6 patch grid of 36 tiles resized
to a strictly smaller 100×100 canvas still holds 36 tiles — the patch
resize only re-chunks the surviving list, it drops nothing, refuting
"strictly reduces the tile count". -/
theorem resize_smaller_keeps_count :
    Masonry.totalTiles (Masonry.initializeGrid exState [0]) = 36 ∧
    Masonry.totalTiles
        (Masonry.resize (Masonry.initializeGrid exState [0]) 100 100) = 36 ∧
    (100 : ℚ) < 300 := by
  have hlen : (Masonry.calculateItemPositions exState [0]).length = 36 := by
    unfold Masonry.calculateItemPositions
    rw [List.length_map, List.length_range, exState_columnCapacity, exState_rowCapacity]
  have hgrid : (Masonry.initializeGrid exState [0]).gridItems =
      Masonry.chunkList 6 (Masonry.calculateItemPositions exState [0]) := by
    unfold Masonry.initializeGrid
    rw [exState_columnCapacity]
  have h1 : Masonry.totalTiles (Masonry.initializeGrid exState [0]) = 36 := by
    unfold Masonry.totalTiles
    rw [hgrid, chunkList_flatten 6 (by norm_num), hlen]
  refine ⟨h1, ?_, by norm_num⟩
  have hne : 0 < (Masonry.initializeGrid exState [0]).gridItems.length := by
    rcases Nat.eq_zero_or_pos (Masonry.initializeGrid exState [0]).gridItems.length
      with h | h
    · exfalso
      unfold Masonry.totalTiles at h1
      rw [List.length_eq_zero] at h
      rw [h] at h1
      simp at h1
    · exact h
  have hcap2 : Masonry.columnCapacity
      { Masonry.initializeGrid exState [0] with canvasWidth := 100, canvasHeight := 100 }
        = 2 := by
    norm_num [Masonry.columnCapacity, Masonry.blockWidth, Masonry.initializeGrid, exState]
    decide
  unfold Masonry.resize Masonry.totalTiles
  simp only [hne, if_pos]
  rw [hcap2, chunkList_flatten 2 (by norm_num)]
  have : (Masonry.initializeGrid exState [0]).gridItems.flatten.length = 36 := h1
  exact this

/-- `getLastD` commutes with `map` when the default is mapped too. -/
theorem getLastD_map (f : α → β) (l : List α) (d : α) :
    (l.map f).getLastD (f d) = f (l.getLastD d) := by
  induction l generalizing d with
  | nil => simp
  | cons a t ih =>
      simp only [List.map_cons, List.getLastD_cons]
      exact ih a

/-- With the horizontal axis locked, the per-tile translation step keeps
`x` unchanged. -/
theorem shiftItem_x_locked (dV : Bool) (dx dy : ℚ) (t : Masonry.GridItem) :
    (Masonry.shiftItem true dV dx dy t).x = t.x := by
  simp [Masonry.shiftItem]

/-- The translated `y` depends only on the tile's `y`. -/
theorem shiftItem_y (dV : Bool) (dx dy : ℚ) (t : Masonry.GridItem) :
    (Masonry.shiftItem true dV dx dy t).y = if dV then t.y else t.y + dy := by
  simp [Masonry.shiftItem]

/-- The overflow test is false exactly on the closed keep box. -/
theorem isOutOfBounds_eq_false (s : Masonry.State) (x y : ℚ) :
    Masonry.isOutOfBounds s x y = false ↔
      (-s.style.width ≤ x ∧ x ≤ s.canvasWidth ∧
        -s.style.height ≤ y ∧ y ≤ s.canvasHeight) := by
  simp only [Masonry.isOutOfBounds, Bool.or_eq_false_iff, decide_eq_false_iff_not,
    not_or, not_lt]
  tauto

/-- The overflow test is true exactly outside the closed keep box. -/
theorem isOutOfBounds_eq_true (s : Masonry.State) (x y : ℚ) :
    Masonry.isOutOfBounds s x y = true ↔
      (x < -s.style.width ∨ x > s.canvasWidth ∨
        y < -s.style.height ∨ y > s.canvasHeight) := by
  simp only [Masonry.isOutOfBounds, Bool.or_eq_true, decide_eq_true_eq]
  tauto

/-- A row with uniform `y` and in-box `x` passes the overflow filter
whole or not at all. -/
theorem filter_uniform_row (s : Masonry.State) (r : List Masonry.GridItem) (y0 : ℚ)
    (hy : ∀ t ∈ r, t.y = y0)
    (hx : ∀ t ∈ r, -s.style.width ≤ t.x ∧ t.x ≤ s.canvasWidth) :
    (r.filter fun e => ¬ Masonry.isOutOfBounds s e.x e.y) = r ∨
    (r.filter fun e => ¬ Masonry.isOutOfBounds s e.x e.y) = [] := by
  by_cases hyb : -s.style.height ≤ y0 ∧ y0 ≤ s.canvasHeight
  · left
    rw [List.filter_eq_self]
    intro t ht
    simp only [decide_eq_true_eq, Bool.not_eq_true]
    rw [isOutOfBounds_eq_false]
    obtain ⟨h1, h2⟩ := hx t ht
    rw [hy t ht]
    exact ⟨h1, h2, hyb.1, hyb.2⟩
  · right
    rw [List.filter_eq_nil_iff]
    intro t ht
    simp only [decide_eq_true_eq, not_not]
    rw [isOutOfBounds_eq_true]
    rw [not_and_or] at hyb
    rcases hyb with hb | hb
    · rw [not_le] at hb
      right
      right
      left
      rw [hy t ht]
      exact hb
    · rw [not_le] at hb
      right
      right
      right
      rw [hy t ht]
      exact hb

/-- The locked row shape survives the translation step. -/
theorem rowOk_map_shift (s : Masonry.State) (dV : Bool) (dx dy : ℚ)
    (row : List Masonry.GridItem) (h : rowOk s row) :
    rowOk s (row.map (Masonry.shiftItem true dV dx dy)) := by
  obtain ⟨hne, hy, hx, hhead, hlast⟩ := h
  obtain ⟨a, rest, rfl⟩ := List.exists_cons_of_ne_nil hne
  simp only [List.headD_cons] at hy hhead
  rw [List.getLastD_cons] at hlast
  refine ⟨by simp, ?_, ?_, ?_, ?_⟩
  · intro t ht
    simp only [List.map_cons, List.headD_cons]
    rcases List.mem_map.mp ht with ⟨u, hu, rfl⟩
    rw [shiftItem_y, shiftItem_y, hy u hu]
  · intro t ht
    rcases List.mem_map.mp ht with ⟨u, hu, rfl⟩
    rw [shiftItem_x_locked]
    exact hx u hu
  · simp only [List.map_cons, List.headD_cons]
    rw [shiftItem_x_locked]
    exact hhead
  · simp only [List.map_cons, List.getLastD_cons, getLastD_map]
    rw [shiftItem_x_locked]
    exact hlast

/-- The locked row shape survives `#columnPatch`. -/
theorem rowOk_columnPatch (s : Masonry.State) (row : List Masonry.GridItem) (yv : ℚ)
    (h : rowOk s row) : rowOk s (Masonry.columnPatch row yv) := by
  obtain ⟨hne, hy, hx, hhead, hlast⟩ := h
  obtain ⟨a, rest, rfl⟩ := List.exists_cons_of_ne_nil hne
  simp only [List.headD_cons] at hhead
  rw [List.getLastD_cons] at hlast
  unfold Masonry.columnPatch
  refine ⟨by simp, ?_, ?_, ?_, ?_⟩
  · intro t ht
    simp only [List.map_cons, List.headD_cons]
    rcases List.mem_map.mp ht with ⟨u, hu, rfl⟩
    rfl
  · intro t ht
    rcases List.mem_map.mp ht with ⟨u, hu, rfl⟩
    exact hx u hu
  · simp only [List.map_cons, List.headD_cons]
    exact hhead
  · simp only [List.map_cons, List.getLastD_cons, getLastD_map]
    exact hlast

/-- On a translated locked row, neither horizontal stitch condition
fires and the filter keeps the whole row or nothing. -/
theorem appendHorizontal_locked (s : Masonry.State) (dV : Bool) (dx dy : ℚ)
    (a : Masonry.GridItem) (rest : List Masonry.GridItem)
    (hOk : rowOk s (a :: rest)) :
    Masonry.appendHorizontalItems s
        ((a :: rest).map (Masonry.shiftItem true dV dx dy)) dx =
      (a :: rest).map (Masonry.shiftItem true dV dx dy) ∨
    Masonry.appendHorizontalItems s
        ((a :: rest).map (Masonry.shiftItem true dV dx dy)) dx = [] := by
  obtain ⟨hne, hy, hx, hhead, hlast⟩ := hOk
  simp only [List.headD_cons] at hy hhead
  rw [List.getLastD_cons] at hlast
  have hmain : Masonry.appendHorizontalItems s
      ((a :: rest).map (Masonry.shiftItem true dV dx dy)) dx =
      ((a :: rest).map (Masonry.shiftItem true dV dx dy)).filter
        (fun e => ¬ Masonry.isOutOfBounds s e.x e.y) := by
    simp only [List.map_cons, Masonry.appendHorizontalItems]
    rw [if_neg, if_neg]
    · simp
    · rintro ⟨-, hlt⟩
      rw [List.getLastD_cons, getLastD_map, shiftItem_x_locked] at hlt
      exact absurd hlast (not_le.mpr hlt)
    · rintro ⟨-, hgt⟩
      rw [shiftItem_x_locked] at hgt
      exact absurd hhead (not_le.mpr hgt)
  rw [hmain]
  have hy2 : ∀ t ∈ (a :: rest).map (Masonry.shiftItem true dV dx dy),
      t.y = (Masonry.shiftItem true dV dx dy a).y := by
    intro t ht
    rcases List.mem_map.mp ht with ⟨u, hu, rfl⟩
    rw [shiftItem_y, shiftItem_y, hy u hu]
  have hx2 : ∀ t ∈ (a :: rest).map (Masonry.shiftItem true dV dx dy),
      -s.style.width ≤ t.x ∧ t.x ≤ s.canvasWidth := by
    intro t ht
    rcases List.mem_map.mp ht with ⟨u, hu, rfl⟩
    rw [shiftItem_x_locked]
    exact hx u hu
  exact filter_uniform_row s _ _ hy2 hx2

/-- Every row `#updateGridPosition` hands to the vertical stitch while
the horizontal axis is locked is a whole translated original row. -/
theorem afterRows_locked (s : Masonry.State) (dx dy : ℚ)
    (hH : s.disabledHorizontal = true) (hinv : lockedInv s) :
    ∀ row ∈ Masonry.afterRows s dx dy,
      ∃ row0 ∈ s.gridItems,
        row = row0.map (Masonry.shiftItem true s.disabledVertical dx dy) := by
  intro row hrow
  unfold Masonry.afterRows at hrow
  rw [hH] at hrow
  simp only [List.mem_filterMap, List.mem_map] at hrow
  obtain ⟨r1, ⟨row0, hrow0, rfl⟩, hcond⟩ := hrow
  refine ⟨row0, hrow0, ?_⟩
  have hOk := hinv row0 hrow0
  obtain ⟨a, rest, rfl⟩ := List.exists_cons_of_ne_nil hOk.1
  rcases appendHorizontal_locked s s.disabledVertical dx dy a rest hOk with happ | happ
  · rw [List.map_cons] at hcond
    simp only [List.isEmpty_cons, Bool.false_eq_true, if_false] at hcond
    rw [← List.map_cons] at hcond
    rw [happ] at hcond
    simp only [List.isEmpty_cons, Bool.false_eq_true, if_false, List.map_cons,
      Option.some.injEq] at hcond
    rw [← hcond, List.map_cons]
  · rw [List.map_cons] at hcond
    simp only [List.isEmpty_cons, Bool.false_eq_true, if_false] at hcond
    rw [← List.map_cons] at hcond
    rw [happ] at hcond
    simp at hcond

/-- Membership in `xList`, unpacked. -/
theorem mem_xList (s : Masonry.State) (x : ℚ) :
    x ∈ Masonry.xList s ↔ ∃ row ∈ s.gridItems, ∃ t ∈ row, t.x = x := by
  unfold Masonry.xList
  simp only [List.mem_map, List.mem_flatten]
  constructor
  · rintro ⟨t, ⟨row, hrow, ht⟩, rfl⟩
    exact ⟨row, hrow, t, ht, rfl⟩
  · rintro ⟨row, hrow, t, ht, rfl⟩
    exact ⟨t, ⟨row, hrow, ht⟩, rfl⟩

/-- Every row of `#appendVerticalItems` output is an input row or a
`#columnPatch` clone of an input row. -/
theorem appendVertical_members (s : Masonry.State)
    (R : List (List Masonry.GridItem)) (dy : ℚ) :
    ∀ row ∈ Masonry.appendVerticalItems s R dy,
      row ∈ R ∨ ∃ r ∈ R, ∃ yv, row = Masonry.columnPatch r yv := by
  intro row hrow
  cases R with
  | nil => simp [Masonry.appendVerticalItems] at hrow
  | cons r1 rs =>
      simp only [Masonry.appendVerticalItems] at hrow
      rcases List.mem_append.mp hrow with h | h
      · rcases List.mem_append.mp h with h2 | h2
        · split_ifs at h2 with hc
          · simp only [List.mem_singleton] at h2
            exact Or.inr ⟨(r1 :: rs).getLastD r1, getLastD_mem _ _ (by simp), _, h2⟩
          · simp at h2
        · exact Or.inl h2
      · split_ifs at h with hc
        · simp only [List.mem_singleton] at h
          exact Or.inr ⟨r1, by simp, _, h⟩
        · simp at h

/-- `#updateGridPosition` never touches the axis-lock flags. -/
theorem updateGridPosition_flags (s : Masonry.State) (dx dy : ℚ) :
    (Masonry.updateGridPosition s dx dy).disabledHorizontal = s.disabledHorizontal ∧
    (Masonry.updateGridPosition s dx dy).disabledVertical = s.disabledVertical := by
  unfold Masonry.updateGridPosition
  split_ifs <;> exact ⟨rfl, rfl⟩

/-- One pan call with the horizontal axis locked keeps the locked
invariant and introduces no x-coordinate not already present. -/
theorem locked_step (s : Masonry.State) (dx dy : ℚ)
    (hH : s.disabledHorizontal = true) (hinv : lockedInv s) :
    lockedInv (Masonry.updateGridPosition s dx dy) ∧
    ∀ x ∈ Masonry.xList (Masonry.updateGridPosition s dx dy), x ∈ Masonry.xList s := by
  have hRprops : ∀ row ∈ Masonry.afterRows s dx dy,
      rowOk s row ∧ ∀ t ∈ row, ∃ row0 ∈ s.gridItems, ∃ t0 ∈ row0, t.x = t0.x := by
    intro row hrow
    obtain ⟨row0, hrow0, rfl⟩ := afterRows_locked s dx dy hH hinv row hrow
    refine ⟨rowOk_map_shift s _ dx dy row0 (hinv row0 hrow0), ?_⟩
    intro t ht
    rcases List.mem_map.mp ht with ⟨u, hu, rfl⟩
    exact ⟨row0, hrow0, u, hu, shiftItem_x_locked _ dx dy u⟩
  have hGprops : ∀ row ∈ (if dy ≠ 0 then
      Masonry.appendVerticalItems s (Masonry.afterRows s dx dy) dy
    else Masonry.afterRows s dx dy),
      rowOk s row ∧ ∀ t ∈ row, ∃ row0 ∈ s.gridItems, ∃ t0 ∈ row0, t.x = t0.x := by
    intro row hrow
    by_cases hdy : dy ≠ 0
    · rw [if_pos hdy] at hrow
      rcases appendVertical_members s _ dy row hrow with hmem | ⟨r, hr, yv, rfl⟩
      · exact hRprops row hmem
      · obtain ⟨hOkr, hxr⟩ := hRprops r hr
        refine ⟨rowOk_columnPatch s r yv hOkr, ?_⟩
        intro t ht
        unfold Masonry.columnPatch at ht
        rcases List.mem_map.mp ht with ⟨u, hu, rfl⟩
        exact hxr u hu
    · rw [if_neg hdy] at hrow
      exact hRprops row hrow
  by_cases hboth : (s.disabledHorizontal = true ∧ s.disabledVertical = true)
  · have hupd : Masonry.updateGridPosition s dx dy = s := by
      unfold Masonry.updateGridPosition
      rw [if_pos hboth]
    rw [hupd]
    exact ⟨hinv, fun x hx => hx⟩
  · have hupd : Masonry.updateGridPosition s dx dy =
        { s with gridItems := if dy ≠ 0 then
            Masonry.appendVerticalItems s (Masonry.afterRows s dx dy) dy
          else Masonry.afterRows s dx dy } := by
      unfold Masonry.updateGridPosition
      rw [if_neg hboth]
    rw [hupd]
    constructor
    · intro row hrow
      exact (hGprops row hrow).1
    · intro x hx
      rw [mem_xList] at hx ⊢
      obtain ⟨row, hrow, t, ht, rfl⟩ := hx
      obtain ⟨-, hxs⟩ := hGprops row hrow
      obtain ⟨row0, hrow0, t0, ht0, hEq⟩ := hxs t ht
      exact ⟨row0, hrow0, t0, ht0, hEq.symm⟩

/-- Across any number of pan calls with the horizontal axis locked,
every x-coordinate in the grid was already there at the start. -/
theorem panAll_x_subset (ds : List (ℚ × ℚ)) :
    ∀ (s : Masonry.State), s.disabledHorizontal = true → lockedInv s →
      ∀ x ∈ Masonry.xList (Masonry.panAll s ds), x ∈ Masonry.xList s := by
  induction ds with
  | nil =>
      intro s _ _ x hx
      simpa [Masonry.panAll] using hx
  | cons d rest ih =>
      intro s hH hinv x hx
      have hfold : Masonry.panAll s (d :: rest) =
          Masonry.panAll (Masonry.updateGridPosition s d.1 d.2) rest := by
        simp [Masonry.panAll]
      rw [hfold] at hx
      obtain ⟨hinv2, hincl⟩ := locked_step s d.1 d.2 hH hinv
      have hH2 : (Masonry.updateGridPosition s d.1 d.2).disabledHorizontal = true := by
        rw [(updateGridPosition_flags s d.1 d.2).1]
        exact hH
      exact hincl x (ih _ hH2 hinv2 x hx)

/-- C5: with the horizontal axis disabled and the vertical axis enabled,
starting from a grid in the locked row shape (as the built grid is),
across any number of pan calls no tile's `x` changes — the translation
step leaves `x` untouched — and no tile is introduced at a new `x`:
every x-coordinate present afterwards was present initially. -/
theorem axis_lock_preserves_x (s : Masonry.State) (ds : List (ℚ × ℚ))
    (hH : s.disabledHorizontal = true) (hV : s.disabledVertical = false)
    (hinv : lockedInv s) :
    (∀ x ∈ Masonry.xList (Masonry.panAll s ds), x ∈ Masonry.xList s) ∧
    (∀ dx dy t, (Masonry.shiftItem s.disabledHorizontal s.disabledVertical
        dx dy t).x = t.x) := by
  refine ⟨panAll_x_subset ds s hH hinv, ?_⟩
  intro dx dy t
  rw [hH]
  exact shiftItem_x_locked _ dx dy t

/-- C5 witness: the six-tile locked row panned once by `(60, 10)`. -/
theorem axis_lock_preserves_x_witness :
    lockedInv exLockedState ∧
    ((∀ x ∈ Masonry.xList (Masonry.panAll exLockedState [(60, 10)]),
        x ∈ Masonry.xList exLockedState) ∧
      (∀ dx dy t, (Masonry.shiftItem exLockedState.disabledHorizontal
          exLockedState.disabledVertical dx dy t).x = t.x)) := by
  have hinv : lockedInv exLockedState := by
    intro row hrow
    simp only [exLockedState, List.mem_singleton] at hrow
    subst hrow
    refine ⟨by simp, ?_, ?_, ?_, ?_⟩
    · intro t ht
      simp only [List.mem_cons, List.not_mem_nil, or_false] at ht
      rcases ht with rfl | rfl | rfl | rfl | rfl | rfl <;> rfl
    · intro t ht
      simp only [List.mem_cons, List.not_mem_nil, or_false] at ht
      rcases ht with rfl | rfl | rfl | rfl | rfl | rfl <;>
        norm_num [exLockedState, exState]
    · norm_num [Masonry.gap, exLockedState, exState]
    · simp only [List.getLastD_cons]
      norm_num [Masonry.blockWidth, exLockedState, exState]
  exact ⟨hinv, axis_lock_preserves_x exLockedState [(60, 10)] rfl rfl hinv⟩
